import Mathlib

/-!
# Product registry of `gin/webfeature/main.go`

A shallow embedding of the two request handlers (`productHandler.Create`,
`productHandler.Get`), of the store they share, and of the bootstrap code
(`router`, `main`) that wires the handlers to the two listeners.

Modelling decisions:

* `map[string]Product` is a `Finmap`: finite, one value per key, extensional.
* Both handlers take the exclusive lock on entry and release it on return
  (`p.Lock(); defer p.Unlock()`), so every handler call is one atomic
  transition on the store; a handler is a function from the state before the
  call to the state after it, together with the response written and the lines
  logged.
* `time.Now()` is an input of `Create`.
* `c.ShouldBindHeader` is library code: its header mapping and its `required`
  validation are modelled on the `Product` declaration, and the parser of a
  `time.Time` header value is a parameter `timeParse` of everything that binds.
* The router is not modelled below the level of routes: a `Req` is a request
  that the router has already matched to one of the two registered routes.
* Go pointers are addresses into an explicit heap of `productHandler` values,
  so that sharing between the two servers is computed, not assumed.
-/

namespace webfeature

/-! ## Data model -/

/-- A `time.Time`, as the signed distance in nanoseconds from the zero instant;
the Go zero value `time.Time{}` is `0`. -/
abbrev Time := Int

/-- The record type `Product` (lines 15-22). `Price` is a Go `int`. -/
structure Product where
  Username : String
  Name : String
  Category : String
  Price : Int
  Description : String
  CreatedAt : Time
deriving DecidableEq, Repr

/-- A `http.Header`: canonical header name to the list of its values. -/
abbrev Header := List (String × List String)

/-- The request side of a `gin.Context`: the request headers, the request body
and the path parameters extracted by the router. -/
structure Context where
  Header : Header
  Body : String
  Params : List (String × String)
deriving DecidableEq, Repr

/-- The method `c.Param(key)`: the value of the first path parameter named `key`, or
the empty string. -/
def Context.Param (c : Context) (key : String) : String :=
  (c.Params.lookup key).getD ""

/-- What a handler passes to `c.JSON`. -/
inductive Body where
  /-- The call `c.JSON(code, product)`. -/
  | product (p : Product)
  /-- The call `c.JSON(code, gin.H{"error": msg})` with `msg` a string. -/
  | error (msg : String)
  /-- The call `c.JSON(code, gin.H{"error": err})` with `err` an `error` value whose text
  is `msg`. -/
  | errorValue (msg : String)
deriving DecidableEq, Repr

/-- The response written by a handler. -/
structure Response where
  code : Nat
  body : Body
deriving DecidableEq, Repr

def StatusOK : Nat := 200
def StatusBadRequest : Nat := 400
def StatusNotFound : Nat := 404

/-- The handler state (lines 24-27). The embedded `sync.RWMutex` carries no data:
it only makes each handler call atomic. -/
structure productHandler where
  products : Finmap (fun _ : String => Product)

/-- The constructor `newProductHandle` (lines 29-31): a handler over an empty map. -/
def newProductHandle : productHandler :=
  { products := ∅ }

/-- The effect of one handler call: the handler state afterwards, the response
written and the lines passed to `log.Printf`. -/
structure Served where
  handler : productHandler
  resp : Response
  log : List String

/-! ## Request binding (`c.ShouldBindHeader`) -/

/-- Value of a run of decimal digits, most significant first; `none` when a
character is not a digit. -/
def digitsValue : List Char → Nat → Option Nat
  | [], acc => some acc
  | ch :: rest, acc =>
    if ch.isDigit then digitsValue rest (10 * acc + (ch.toNat - '0'.toNat)) else none

/-- Modelled from the spec: `strconv.ParseInt(s, 10, 64)` of the Go standard library,
which the framework's binding uses for an `int` field. An optional sign, then at
least one decimal digit, and the value has to fit a 64 bit signed integer. -/
def ParseInt (s : String) : Except String Int :=
  let syntaxErr : Except String Int :=
    .error ("strconv.ParseInt: parsing \"" ++ s ++ "\": invalid syntax")
  let rangeErr : Except String Int :=
    .error ("strconv.ParseInt: parsing \"" ++ s ++ "\": value out of range")
  let (neg, ds) :=
    match s.toList with
    | '+' :: ds => (false, ds)
    | '-' :: ds => (true, ds)
    | ds => (false, ds)
  if ds = [] then syntaxErr else
  match digitsValue ds 0 with
  | none => syntaxErr
  | some n =>
    if neg then (if n ≤ 2 ^ 63 then .ok (-(n : Int)) else rangeErr)
    else (if n < 2 ^ 63 then .ok (n : Int) else rangeErr)

/-- Modelled from the spec: how the framework's header binding fills a `string` field
from the header named after the field: untouched (zero value) when the header is
absent, else the first value of the header. -/
def headerString (h : Header) (key : String) : String :=
  match h.lookup key with
  | none => ""
  | some vs => vs.headD ""

/-- Modelled from the spec: how the framework's header binding fills an `int` field:
untouched when the header is absent, else the first value parsed in base ten,
an empty value counting as `0`. -/
def headerInt (h : Header) (key : String) : Except String Int :=
  match h.lookup key with
  | none => .ok 0
  | some vs =>
    let val := vs.headD ""
    ParseInt (if val = "" then "0" else val)

/-- Modelled from the spec: how the framework's header binding fills a `time.Time`
field: untouched when the header is absent, the zero time for an empty value,
else the value parsed by `timeParse`, which stands for the standard library's
`time.ParseInLocation(time.RFC3339, ·, time.Local)`. -/
def headerTime (timeParse : String → Except String Time) (h : Header) (key : String) :
    Except String Time :=
  match h.lookup key with
  | none => .ok 0
  | some vs =>
    let val := vs.headD ""
    if val = "" then .ok 0 else timeParse val

/-- Modelled from the spec: the mapping step of `c.ShouldBindHeader(&product)`. The
struct declares no `header` tags, so each field is read from the header whose
canonical name is the field name. Only `c.Header` is read; `c.Body` is not. -/
def mapHeader (timeParse : String → Except String Time) (h : Header) : Except String Product := do
  let price ← headerInt h "Price"
  let createdAt ← headerTime timeParse h "Createdat"
  pure { Username := headerString h "Username"
         Name := headerString h "Name"
         Category := headerString h "Category"
         Price := price
         Description := headerString h "Description"
         CreatedAt := createdAt }

/-- The message of one failed `binding:"required"` check. -/
def requiredMsg (field : String) : String :=
  "Key: 'Product." ++ field ++ "' Error:Field validation for '" ++ field ++
    "' failed on the 'required' tag"

/-- The fields of `p` that fail their `binding:"required"` tag (lines 16-20), in
declaration order: a required string is non-empty, a required `int` is non-zero.
`CreatedAt` carries no `binding` tag. -/
def requiredFailures (p : Product) : List String :=
  (if p.Username = "" then ["Username"] else []) ++
  (if p.Name = "" then ["Name"] else []) ++
  (if p.Category = "" then ["Category"] else []) ++
  (if p.Price = 0 then ["Price"] else []) ++
  (if p.Description = "" then ["Description"] else [])

/-- Modelled from the spec: the validation step of the binding, driven by the
`binding:"required"` tags of `Product`. -/
def validate (p : Product) : Except String Unit :=
  match requiredFailures p with
  | [] => .ok ()
  | fs => .error ("\n".intercalate (fs.map requiredMsg))

/-- Modelled from the spec: `c.ShouldBindHeader(&product)`: map the request headers
onto the struct, then validate it. -/
def ShouldBindHeader (timeParse : String → Except String Time) (c : Context) :
    Except String Product := do
  let product ← mapHeader timeParse c.Header
  validate product
  pure product

/-! ## The handlers -/

/-- The handler `productHandler.Create` (lines 33-57). `now` is the value `time.Now()`
returns at line 49. -/
def Create (timeParse : String → Except String Time) (p : productHandler) (now : Time)
    (c : Context) : Served :=
  match ShouldBindHeader timeParse c with
  | .error err =>
    { handler := p, resp := { code := StatusBadRequest, body := .error err }, log := [] }
  | .ok product =>
    match p.products.lookup product.Name with
    | some _ =>
      { handler := p
        resp := { code := StatusBadRequest
                  body := .error ("product " ++ product.Name ++ " already exist") }
        log := [] }
    | none =>
      let product := { product with CreatedAt := now }
      { handler := { p with products := p.products.insert product.Name product }
        resp := { code := StatusOK, body := .product product }
        log := ["Register product " ++ product.Name ++ " success"] }

/-- The handler `productHandler.Get` (lines 59-70). -/
def Get (p : productHandler) (c : Context) : Served :=
  match p.products.lookup (c.Param "name") with
  | none =>
    { handler := p
      resp := { code := StatusNotFound
                body := .errorValue ("can not found product " ++ c.Param "name") }
      log := [] }
  | some product =>
    { handler := p, resp := { code := StatusOK, body := .product product }, log := [] }

/-! ## Sequences of requests -/

/-- A request that the router hands to one of the two handlers. A `create`
carries the clock reading its handler obtains from `time.Now()`. -/
inductive Req where
  | create (now : Time) (c : Context)
  | get (c : Context)
deriving DecidableEq, Repr

/-- Serve one routed request on a handler. -/
def serve (timeParse : String → Except String Time) (p : productHandler) : Req → Served
  | .create now c => Create timeParse p now c
  | .get c => Get p c

/-- The handler state after serving the requests in order. -/
def run (timeParse : String → Except String Time) (p : productHandler) : List Req → productHandler
  | [] => p
  | r :: rs => run timeParse (serve timeParse p r).handler rs

/-- Every request of the sequence paired with the response it received. -/
def trace (timeParse : String → Except String Time) (p : productHandler) :
    List Req → List (Req × Response)
  | [] => []
  | r :: rs => (r, (serve timeParse p r).resp) :: trace timeParse (serve timeParse p r).handler rs

/-- Whether a request/response pair is a `Create` that succeeded for `name`:
a create request answered 200 with a record of that name. -/
def createdFor (name : String) : Req × Response → Bool
  | (.create _ _, resp) =>
    resp.code == StatusOK &&
      (match resp.body with
       | .product r => r.Name == name
       | _ => false)
  | (.get _, _) => false

/-- A product passes validation: every required string is non-empty and the
price is non-zero. -/
def Valid (r : Product) : Prop :=
  r.Username ≠ "" ∧ r.Name ≠ "" ∧ r.Category ≠ "" ∧ r.Description ≠ "" ∧ r.Price ≠ 0

instance (r : Product) : Decidable (Valid r) := by
  unfold Valid; infer_instance

/-- A request lacks a required field: one of the four required strings reaches
the binding empty, or the price reaches it as zero or not at all. -/
def MissingRequired (c : Context) : Prop :=
  headerString c.Header "Username" = "" ∨ headerString c.Header "Name" = "" ∨
  headerString c.Header "Category" = "" ∨ headerString c.Header "Description" = "" ∨
  headerInt c.Header "Price" = .ok 0

/-- Every entry sits under its own name and holds a validated record. -/
def StoreInv (p : productHandler) : Prop :=
  ∀ k r, p.products.lookup k = some r → r.Name = k ∧ Valid r

/-- One create call of a batch: the clock reading its handler obtains, the
request, and the product the request binds to. -/
structure Submission where
  now : Time
  c : Context
  prod : Product
deriving DecidableEq, Repr

/-- The routed request of a submission. -/
def Submission.req (x : Submission) : Req :=
  .create x.now x.c

/-- The record a successful create of the submission returns. -/
def Submission.record (x : Submission) : Product :=
  { x.prod with CreatedAt := x.now }

/-! ## Bootstrap (`router`, `main`) -/

/-- The heap of handler objects; a `*productHandler` is an index into it. -/
abbrev Heap := List productHandler

/-- A method value registered as a route handler: `productHandler.Create` or
`productHandler.Get` bound to the receiver at address `p`. -/
inductive HandlerFunc where
  | Create (p : Nat)
  | Get (p : Nat)
deriving DecidableEq, Repr

/-- One entry of an engine's routing table. -/
structure RouteInfo where
  Method : String
  Path : String
  Handler : HandlerFunc
deriving DecidableEq, Repr

/-- The `http.Handler` that `router` returns: a gin engine with its own routing
table. -/
structure Engine where
  routes : List RouteInfo
deriving DecidableEq, Repr

/-- The function `router` (lines 72-80): allocate a fresh `productHandler` and build a
fresh engine whose two routes are bound to it. -/
def router (heap : Heap) : Heap × Engine :=
  let productHandler := heap.length
  let heap := heap ++ [newProductHandle]
  (heap,
   { routes :=
      [ { Method := "POST", Path := "/v1/products", Handler := .Create productHandler },
        { Method := "GET", Path := "/v1/products/:name", Handler := .Get productHandler } ] })

/-- A `http.Server` value, timeouts in seconds. -/
structure Server where
  Addr : String
  Handler : Engine
  ReadTimeout : Nat
  WriteTimeout : Nat
deriving DecidableEq, Repr

/-- The process state: the heap and the two servers built by `main`. -/
structure Process where
  heap : Heap
  insecureServer : Server
  secureServer : Server

/-- The function `main` (lines 82-93), up to the point where the listeners start: each
server literal calls `router()` for its `Handler`. -/
def main : Process :=
  let (heap, h1) := router []
  let insecureServer : Server :=
    { Addr := ":8080", Handler := h1, ReadTimeout := 5, WriteTimeout := 10 }
  let (heap, h2) := router heap
  let secureServer : Server :=
    { Addr := ":8443", Handler := h2, ReadTimeout := 5, WriteTimeout := 10 }
  { heap := heap, insecureServer := insecureServer, secureServer := secureServer }

/-- The two listeners of the process. -/
inductive Listener where
  | insecure
  | secure
deriving DecidableEq, Repr

/-- The server behind a listener. -/
def Process.server (P : Process) : Listener → Server
  | .insecure => P.insecureServer
  | .secure => P.secureServer

/-- HTTP method of a routed request. -/
def Req.Method : Req → String
  | .create _ _ => "POST"
  | .get _ => "GET"

/-- Route pattern of a routed request. -/
def Req.FullPath : Req → String
  | .create _ _ => "/v1/products"
  | .get _ => "/v1/products/:name"

/-- Invoke a registered method value on a routed request: run the handler on the
receiver stored at its address and write the receiver back. `none` when the
address is dangling or the request is not of the handler's kind. -/
def HandlerFunc.call (timeParse : String → Except String Time) (heap : Heap) :
    HandlerFunc → Req → Option (Heap × Response)
  | .Create p, .create now c =>
    (heap.get? p).map fun h =>
      let s := webfeature.Create timeParse h now c
      (heap.set p s.handler, s.resp)
  | .Get p, .get c =>
    (heap.get? p).map fun h =>
      let s := webfeature.Get h c
      (heap.set p s.handler, s.resp)
  | _, _ => none

/-- Dispatch a routed request through an engine: the first route with the
request's method and pattern handles it. -/
def Engine.ServeHTTP (timeParse : String → Except String Time) (e : Engine) (heap : Heap)
    (r : Req) : Option (Heap × Response) :=
  match e.routes.find? (fun ri => ri.Method == r.Method && ri.Path == r.FullPath) with
  | none => none
  | some ri => ri.Handler.call timeParse heap r

/-- Serve a routed request that arrived on listener `l`. The response is `none`
when no handler ran. -/
def Process.serve (timeParse : String → Except String Time) (P : Process) (l : Listener)
    (r : Req) : Process × Option Response :=
  match (P.server l).Handler.ServeHTTP timeParse P.heap r with
  | none => (P, none)
  | some (heap, resp) => ({ P with heap := heap }, some resp)

/-! ## Sample data -/

/-- A time parser that accepts nothing. -/
def rejectTime : String → Except String Time :=
  fun _ => .error "parsing time: cannot parse"

/-- The product of the specification's example. -/
def widget : Product :=
  { Username := "alice", Name := "widget", Category := "tools", Price := 100,
    Description := "a widget", CreatedAt := 0 }

/-- A create request that carries the example product in its headers. -/
def widgetHeaderCtx : Context :=
  { Header := [("Username", ["alice"]), ("Name", ["widget"]), ("Category", ["tools"]),
               ("Price", ["100"]), ("Description", ["a widget"])]
    Body := ""
    Params := [] }

/-- A create request that carries the example product as a JSON body, the way
the specification's example sends it. -/
def widgetBodyCtx : Context :=
  { Header := [("Content-Type", ["application/json"])]
    Body := "\x7b\"username\":\"alice\",\"name\":\"widget\",\"category\":\"tools\"," ++
      "\"price\":100,\"description\":\"a widget\"\x7d"
    Params := [] }

/-- A create request without a `Username`. -/
def anonymousCtx : Context :=
  { Header := [("Name", ["widget"]), ("Category", ["tools"]), ("Price", ["100"]),
               ("Description", ["a widget"])]
    Body := ""
    Params := [] }

/-- A get request for `name`. -/
def getCtx (name : String) : Context :=
  { Header := [], Body := "", Params := [("name", name)] }

/-- A store that holds the example product, created at time 5. -/
def widgetStore : productHandler :=
  { products := Finmap.singleton "widget" { widget with CreatedAt := 5 } }

/-- A second product. -/
def gadget : Product :=
  { Username := "bob", Name := "gadget", Category := "toys", Price := 7,
    Description := "a gadget", CreatedAt := 0 }

/-- A create request that carries the second product in its headers. -/
def gadgetHeaderCtx : Context :=
  { Header := [("Username", ["bob"]), ("Name", ["gadget"]), ("Category", ["toys"]),
               ("Price", ["7"]), ("Description", ["a gadget"])]
    Body := ""
    Params := [] }

/-! ## Lemmas on binding and validation -/

theorem requiredFailures_eq_nil (r : Product) : requiredFailures r = [] ↔ Valid r := by
  unfold requiredFailures Valid
  by_cases h1 : r.Username = "" <;> by_cases h2 : r.Name = "" <;>
    by_cases h3 : r.Category = "" <;> by_cases h4 : r.Price = 0 <;>
    by_cases h5 : r.Description = "" <;> simp [h1, h2, h3, h4, h5]

theorem validate_ok (r : Product) (h : Valid r) : validate r = .ok () := by
  unfold validate
  rw [(requiredFailures_eq_nil r).2 h]

theorem validate_error (r : Product) (h : ¬ Valid r) : ∃ e, validate r = .error e := by
  unfold validate
  cases hf : requiredFailures r with
  | nil => exact absurd ((requiredFailures_eq_nil r).1 hf) h
  | cons f fs => exact ⟨_, rfl⟩

theorem ShouldBindHeader_of_valid (timeParse : String → Except String Time) (c : Context)
    (prod : Product) (hb : mapHeader timeParse c.Header = .ok prod) (hv : Valid prod) :
    ShouldBindHeader timeParse c = .ok prod := by
  unfold ShouldBindHeader
  rw [hb]
  show (validate prod >>= fun _ => pure prod) = Except.ok prod
  rw [validate_ok prod hv]
  rfl

theorem ShouldBindHeader_ok (timeParse : String → Except String Time) (c : Context)
    (prod : Product) (h : ShouldBindHeader timeParse c = .ok prod) :
    mapHeader timeParse c.Header = .ok prod ∧ Valid prod := by
  unfold ShouldBindHeader at h
  cases hm : mapHeader timeParse c.Header with
  | error e => rw [hm] at h; cases h
  | ok q =>
    rw [hm] at h
    by_cases hv : Valid q
    · have h2 : (validate q >>= fun _ => pure q) = Except.ok prod := h
      rw [validate_ok q hv] at h2
      have h3 : q = prod := by injection h2
      subst h3
      exact ⟨rfl, hv⟩
    · obtain ⟨e, he⟩ := validate_error q hv
      have h2 : (validate q >>= fun _ => pure q) = Except.ok prod := h
      rw [he] at h2
      cases h2

theorem mapHeader_fields (timeParse : String → Except String Time) (h : Header) (prod : Product)
    (hb : mapHeader timeParse h = .ok prod) :
    prod.Username = headerString h "Username" ∧ prod.Name = headerString h "Name" ∧
    prod.Category = headerString h "Category" ∧
    prod.Description = headerString h "Description" ∧ headerInt h "Price" = .ok prod.Price := by
  unfold mapHeader at hb
  cases hp : headerInt h "Price" with
  | error e => rw [hp] at hb; cases hb
  | ok price =>
    rw [hp] at hb
    cases ht : headerTime timeParse h "Createdat" with
    | error e =>
      have hb2 : (headerTime timeParse h "Createdat" >>= fun createdAt =>
        (pure { Username := headerString h "Username", Name := headerString h "Name",
                Category := headerString h "Category", Price := price,
                Description := headerString h "Description",
                CreatedAt := createdAt } : Except String Product)) = Except.ok prod := hb
      rw [ht] at hb2; cases hb2
    | ok t =>
      have hb2 : (headerTime timeParse h "Createdat" >>= fun createdAt =>
        (pure { Username := headerString h "Username", Name := headerString h "Name",
                Category := headerString h "Category", Price := price,
                Description := headerString h "Description",
                CreatedAt := createdAt } : Except String Product)) = Except.ok prod := hb
      rw [ht] at hb2
      injection hb2 with h3
      subst h3
      exact ⟨rfl, rfl, rfl, rfl, rfl⟩

theorem ShouldBindHeader_missing (timeParse : String → Except String Time) (c : Context)
    (h : MissingRequired c) : ∃ e, ShouldBindHeader timeParse c = .error e := by
  cases hs : ShouldBindHeader timeParse c with
  | error e => exact ⟨e, rfl⟩
  | ok prod =>
    exfalso
    obtain ⟨hm, hv⟩ := ShouldBindHeader_ok timeParse c prod hs
    obtain ⟨h1, h2, h3, h4, h5⟩ := mapHeader_fields timeParse c.Header prod hm
    obtain ⟨v1, v2, v3, v4, v5⟩ := hv
    rcases h with h | h | h | h | h
    · exact v1 (h1.trans h)
    · exact v2 (h2.trans h)
    · exact v3 (h3.trans h)
    · exact v4 (h4.trans h)
    · rw [h5] at h
      have : prod.Price = 0 := by injection h
      exact v5 this

/-! ## Lemmas on the handlers -/

theorem Create_error (timeParse : String → Except String Time) (p : productHandler) (now : Time)
    (c : Context) (e : String) (h : ShouldBindHeader timeParse c = .error e) :
    Create timeParse p now c =
      { handler := p, resp := { code := 400, body := .error e }, log := [] } := by
  unfold Create
  rw [h]
  rfl

theorem Create_duplicate (timeParse : String → Except String Time) (p : productHandler)
    (now : Time) (c : Context) (prod old : Product)
    (h : ShouldBindHeader timeParse c = .ok prod)
    (hk : p.products.lookup prod.Name = some old) :
    Create timeParse p now c =
      { handler := p
        resp := { code := 400, body := .error ("product " ++ prod.Name ++ " already exist") }
        log := [] } := by
  unfold Create
  rw [h]
  simp only [hk]
  rfl

theorem Create_fresh (timeParse : String → Except String Time) (p : productHandler)
    (now : Time) (c : Context) (prod : Product)
    (h : ShouldBindHeader timeParse c = .ok prod)
    (hk : p.products.lookup prod.Name = none) :
    Create timeParse p now c =
      { handler :=
          { products := p.products.insert prod.Name { prod with CreatedAt := now } }
        resp := { code := 200, body := .product { prod with CreatedAt := now } }
        log := ["Register product " ++ prod.Name ++ " success"] } := by
  unfold Create
  rw [h]
  simp only [hk]
  rfl

/-- The three possible outcomes of `Create`. -/
theorem Create_cases (timeParse : String → Except String Time) (p : productHandler)
    (now : Time) (c : Context) :
    (∃ e, Create timeParse p now c =
      { handler := p, resp := { code := 400, body := .error e }, log := [] }) ∨
    (∃ prod, ShouldBindHeader timeParse c = .ok prod ∧
      p.products.lookup prod.Name = none ∧
      Create timeParse p now c =
        { handler :=
            { products := p.products.insert prod.Name { prod with CreatedAt := now } }
          resp := { code := 200, body := .product { prod with CreatedAt := now } }
          log := ["Register product " ++ prod.Name ++ " success"] }) := by
  cases hs : ShouldBindHeader timeParse c with
  | error e => exact Or.inl ⟨e, Create_error timeParse p now c e hs⟩
  | ok prod =>
    cases hk : p.products.lookup prod.Name with
    | some old => exact Or.inl ⟨_, Create_duplicate timeParse p now c prod old hs hk⟩
    | none => exact Or.inr ⟨prod, rfl, hk, Create_fresh timeParse p now c prod hs hk⟩

theorem Get_handler (p : productHandler) (c : Context) : (Get p c).handler = p := by
  unfold Get
  cases p.products.lookup (c.Param "name") <;> rfl

theorem Get_found (p : productHandler) (c : Context) (r : Product)
    (h : p.products.lookup (c.Param "name") = some r) :
    (Get p c).resp = { code := 200, body := .product r } := by
  unfold Get
  rw [h]
  rfl

theorem Get_missing (p : productHandler) (c : Context)
    (h : p.products.lookup (c.Param "name") = none) :
    (Get p c).resp =
      { code := 404, body := .errorValue ("can not found product " ++ c.Param "name") } := by
  unfold Get
  rw [h]
  rfl

theorem Create_then_Get (timeParse : String → Except String Time) (p : productHandler)
    (now : Time) (c : Context) (r : Product) (g : Context)
    (hcode : (Create timeParse p now c).resp.code = 200)
    (hbody : (Create timeParse p now c).resp.body = .product r)
    (hg : g.Param "name" = r.Name) :
    (Get (Create timeParse p now c).handler g).resp = { code := 200, body := .product r } := by
  rcases Create_cases timeParse p now c with ⟨e, he⟩ | ⟨prod, _, _, hc⟩
  · rw [he] at hcode
    simp at hcode
  · rw [hc] at hbody ⊢
    injection hbody with hr
    subst hr
    apply Get_found
    rw [hg]
    exact Finmap.lookup_insert _

/-! ## Lemmas on sequences of requests -/

/-- One served request either leaves the handler as it was, and is not a
successful create, or is a successful create of a name that was absent. -/
theorem serve_cases (timeParse : String → Except String Time) (p : productHandler) (req : Req) :
    ((serve timeParse p req).handler = p ∧
      ∀ k, createdFor k (req, (serve timeParse p req).resp) = false) ∨
    (∃ now c prod, req = .create now c ∧ ShouldBindHeader timeParse c = .ok prod ∧
      p.products.lookup prod.Name = none ∧
      (serve timeParse p req).handler =
        { products := p.products.insert prod.Name { prod with CreatedAt := now } } ∧
      (serve timeParse p req).resp =
        { code := 200, body := .product { prod with CreatedAt := now } }) := by
  cases req with
  | get c =>
    left
    exact ⟨Get_handler p c, fun k => rfl⟩
  | create now c =>
    rcases Create_cases timeParse p now c with ⟨e, he⟩ | ⟨prod, hs, hk, hc⟩
    · left
      show (Create timeParse p now c).handler = p ∧
        ∀ k, createdFor k (Req.create now c, (Create timeParse p now c).resp) = false
      rw [he]
      exact ⟨rfl, fun k => rfl⟩
    · right
      refine ⟨now, c, prod, rfl, hs, hk, ?_, ?_⟩
      · show (Create timeParse p now c).handler = _
        rw [hc]
      · show (Create timeParse p now c).resp = _
        rw [hc]

theorem serve_lookup_mono (timeParse : String → Except String Time) (p : productHandler)
    (req : Req) (k : String) (r : Product) (h : p.products.lookup k = some r) :
    (serve timeParse p req).handler.products.lookup k = some r := by
  rcases serve_cases timeParse p req with ⟨hp, _⟩ | ⟨now, c, prod, _, _, hk, hh, _⟩
  · rw [hp]; exact h
  · rw [hh]
    have hne : k ≠ prod.Name := by
      intro heq
      rw [heq, hk] at h
      cases h
    show Finmap.lookup k (Finmap.insert prod.Name _ p.products) = some r
    rw [Finmap.lookup_insert_of_ne _ hne]
    exact h

theorem run_lookup_mono (timeParse : String → Except String Time) (reqs : List Req) :
    ∀ (p : productHandler) (k : String) (r : Product), p.products.lookup k = some r →
      (run timeParse p reqs).products.lookup k = some r := by
  induction reqs with
  | nil => intro p k r h; exact h
  | cons req rest ih =>
    intro p k r h
    exact ih _ k r (serve_lookup_mono timeParse p req k r h)

/-- A key of the store after one request was a key before it, or the request is
a successful create for that key. -/
theorem serve_mem (timeParse : String → Except String Time) (p : productHandler)
    (req : Req) (k : String) (h : k ∈ (serve timeParse p req).handler.products) :
    k ∈ p.products ∨ createdFor k (req, (serve timeParse p req).resp) = true := by
  rcases serve_cases timeParse p req with ⟨hp, _⟩ | ⟨now, c, prod, hreq, _, _, hh, hr⟩
  · rw [hp] at h; exact Or.inl h
  · rw [hh] at h
    rcases Finmap.mem_insert.1 h with heq | hin
    · right
      rw [hr, hreq, heq]
      simp [createdFor, StatusOK]
    · exact Or.inl hin

theorem run_mem (timeParse : String → Except String Time) (reqs : List Req) :
    ∀ (p : productHandler) (k : String), k ∈ (run timeParse p reqs).products →
      k ∈ p.products ∨ ∃ e ∈ trace timeParse p reqs, createdFor k e = true := by
  induction reqs with
  | nil => intro p k h; exact Or.inl h
  | cons req rest ih =>
    intro p k h
    rcases ih _ k h with h1 | ⟨e, he, hc⟩
    · rcases serve_mem timeParse p req k h1 with h2 | h2
      · exact Or.inl h2
      · exact Or.inr ⟨_, List.mem_cons_self _ _, h2⟩
    · exact Or.inr ⟨e, List.mem_cons_of_mem _ he, hc⟩

theorem StoreInv_new : StoreInv newProductHandle := by
  intro k r h
  simp [newProductHandle] at h

theorem serve_StoreInv (timeParse : String → Except String Time) (p : productHandler)
    (req : Req) (h : StoreInv p) : StoreInv (serve timeParse p req).handler := by
  rcases serve_cases timeParse p req with ⟨hp, _⟩ | ⟨now, c, prod, _, hs, _, hh, _⟩
  · rw [hp]; exact h
  · rw [hh]
    intro k r hl
    by_cases hk : k = prod.Name
    · subst hk
      have hl2 : Finmap.lookup prod.Name
          (Finmap.insert prod.Name { prod with CreatedAt := now } p.products) = some r := hl
      rw [Finmap.lookup_insert] at hl2
      injection hl2 with hl3
      subst hl3
      exact ⟨rfl, (ShouldBindHeader_ok timeParse c prod hs).2⟩
    · have hl2 : Finmap.lookup k
          (Finmap.insert prod.Name { prod with CreatedAt := now } p.products) = some r := hl
      rw [Finmap.lookup_insert_of_ne _ hk] at hl2
      exact h k r hl2

theorem run_StoreInv (timeParse : String → Except String Time) (reqs : List Req) :
    ∀ (p : productHandler), StoreInv p → StoreInv (run timeParse p reqs) := by
  induction reqs with
  | nil => intro p h; exact h
  | cons req rest ih =>
    intro p h
    exact ih _ (serve_StoreInv timeParse p req h)

/-- A batch of creates that bind to valid products with pairwise distinct names,
all absent from the store: each is answered 200 with its record, and the final
store maps each name to that record. -/
theorem creates_trace (timeParse : String → Except String Time) (items : List Submission) :
    ∀ p : productHandler,
      (∀ x ∈ items, ShouldBindHeader timeParse x.c = .ok x.prod) →
      (∀ x ∈ items, x.prod.Name ∉ p.products) →
      (items.map fun x => x.prod.Name).Nodup →
      List.Forall₂
        (fun x e => e = (x.req, ({ code := 200, body := .product x.record } : Response)) ∧
          (run timeParse p (items.map Submission.req)).products.lookup x.prod.Name =
            some x.record)
        items (trace timeParse p (items.map Submission.req)) := by
  induction items with
  | nil => intro p _ _ _; exact List.Forall₂.nil
  | cons x xs ih =>
    intro p hb ha hd
    have hbx := hb x (List.mem_cons_self _ _)
    have hax : p.products.lookup x.prod.Name = none :=
      Finmap.lookup_eq_none.2 (ha x (List.mem_cons_self _ _))
    have hc := Create_fresh timeParse p x.now x.c x.prod hbx hax
    have hserve : serve timeParse p x.req =
        { handler := { products := p.products.insert x.prod.Name x.record }
          resp := { code := 200, body := .product x.record }
          log := ["Register product " ++ x.prod.Name ++ " success"] } := hc
    rw [List.map_cons, List.nodup_cons] at hd
    have hfresh : ∀ y ∈ xs, y.prod.Name ∉
        (serve timeParse p x.req).handler.products := by
      intro y hy hin
      rw [hserve] at hin
      rcases Finmap.mem_insert.1 hin with heq | hold
      · exact hd.1 (List.mem_map.2 ⟨y, hy, heq⟩)
      · exact ha y (List.mem_cons_of_mem _ hy) hold
    have htail := ih (serve timeParse p x.req).handler
      (fun y hy => hb y (List.mem_cons_of_mem _ hy)) hfresh hd.2
    have hrun : run timeParse p ((x :: xs).map Submission.req) =
        run timeParse (serve timeParse p x.req).handler (xs.map Submission.req) := rfl
    have htrace : trace timeParse p ((x :: xs).map Submission.req) =
        (x.req, (serve timeParse p x.req).resp) ::
          trace timeParse (serve timeParse p x.req).handler (xs.map Submission.req) := rfl
    rw [htrace]
    refine List.Forall₂.cons ⟨?_, ?_⟩ ?_
    · rw [hserve]
    · rw [hrun]
      apply run_lookup_mono
      rw [hserve]
      exact Finmap.lookup_insert _
    · rw [hrun]
      exact htail

/-! ## The claims -/

/-- C1: a create request whose bound product passes validation and whose name is
not a key of the store is answered 200 with a record that has the submitted
username, name, category, price and description and `CreatedAt = now` (hence
non-zero when `now` is), and afterwards the store maps the name to exactly that
record; the store is the old one with that single entry added. -/
theorem C1_create_fresh (timeParse : String → Except String Time) (p : productHandler)
    (now : Time) (c : Context) (prod : Product)
    (hb : mapHeader timeParse c.Header = .ok prod) (hv : Valid prod)
    (hn : prod.Name ∉ p.products) :
    (Create timeParse p now c).resp.code = 200 ∧
    ∃ r, (Create timeParse p now c).resp.body = .product r ∧
      r.Username = prod.Username ∧ r.Name = prod.Name ∧ r.Category = prod.Category ∧
      r.Price = prod.Price ∧ r.Description = prod.Description ∧ r.CreatedAt = now ∧
      (now ≠ 0 → r.CreatedAt ≠ 0) ∧
      (Create timeParse p now c).handler.products.lookup prod.Name = some r ∧
      (Create timeParse p now c).handler.products = p.products.insert prod.Name r := by
  have hs := ShouldBindHeader_of_valid timeParse c prod hb hv
  have hk : p.products.lookup prod.Name = none := Finmap.lookup_eq_none.2 hn
  rw [Create_fresh timeParse p now c prod hs hk]
  refine ⟨rfl, { prod with CreatedAt := now }, rfl, rfl, rfl, rfl, rfl, rfl, rfl,
    fun h => h, ?_, rfl⟩
  exact Finmap.lookup_insert _

theorem C1_create_fresh_witness :
    mapHeader rejectTime widgetHeaderCtx.Header = .ok widget ∧ Valid widget ∧
    widget.Name ∉ newProductHandle.products ∧
    (Create rejectTime newProductHandle 5 widgetHeaderCtx).resp.code = 200 ∧
    ∃ r, (Create rejectTime newProductHandle 5 widgetHeaderCtx).resp.body = .product r ∧
      r.Username = widget.Username ∧ r.Name = widget.Name ∧ r.Category = widget.Category ∧
      r.Price = widget.Price ∧ r.Description = widget.Description ∧ r.CreatedAt = 5 ∧
      ((5 : Time) ≠ 0 → r.CreatedAt ≠ 0) ∧
      (Create rejectTime newProductHandle 5 widgetHeaderCtx).handler.products.lookup
        widget.Name = some r ∧
      (Create rejectTime newProductHandle 5 widgetHeaderCtx).handler.products =
        newProductHandle.products.insert widget.Name r :=
  ⟨rfl, by decide, Finmap.not_mem_empty,
    C1_create_fresh rejectTime newProductHandle 5 widgetHeaderCtx widget rfl (by decide)
      Finmap.not_mem_empty⟩

/-- C2: a create request whose bound product is valid but whose name is already
a key of the store is answered 400 and leaves the store exactly as it was. -/
theorem C2_create_duplicate (timeParse : String → Except String Time) (p : productHandler)
    (now : Time) (c : Context) (prod : Product)
    (hb : mapHeader timeParse c.Header = .ok prod) (hv : Valid prod)
    (hin : prod.Name ∈ p.products) :
    (Create timeParse p now c).resp.code = 400 ∧
    (Create timeParse p now c).handler.products = p.products ∧
    (Create timeParse p now c).handler.products.lookup prod.Name =
      p.products.lookup prod.Name := by
  have hs := ShouldBindHeader_of_valid timeParse c prod hb hv
  obtain ⟨old, hold⟩ := Finmap.mem_iff.1 hin
  rw [Create_duplicate timeParse p now c prod old hs hold]
  exact ⟨rfl, rfl, rfl⟩

theorem C2_create_duplicate_witness :
    mapHeader rejectTime widgetHeaderCtx.Header = .ok widget ∧ Valid widget ∧
    widget.Name ∈ widgetStore.products ∧
    (Create rejectTime widgetStore 9 widgetHeaderCtx).resp.code = 400 ∧
    (Create rejectTime widgetStore 9 widgetHeaderCtx).handler.products =
      widgetStore.products ∧
    (Create rejectTime widgetStore 9 widgetHeaderCtx).handler.products.lookup widget.Name =
      widgetStore.products.lookup widget.Name :=
  ⟨rfl, by decide, (Finmap.mem_singleton _ _ _).2 rfl,
    C2_create_duplicate rejectTime widgetStore 9 widgetHeaderCtx widget rfl (by decide)
      ((Finmap.mem_singleton _ _ _).2 rfl)⟩

/-- C3: from the empty initial store, after any finite sequence of create and
get requests, a get for a name for which no create of the sequence succeeded is
answered 404; and on every store a get is answered 404 exactly when the name is
not a key, 200 exactly when it is. -/
theorem C3_get_not_found (timeParse : String → Except String Time) (reqs : List Req)
    (p : productHandler) (c : Context) :
    ((∀ e ∈ trace timeParse newProductHandle reqs, createdFor (c.Param "name") e = false) →
      (Get (run timeParse newProductHandle reqs) c).resp.code = 404) ∧
    ((Get p c).resp.code = 404 ↔ c.Param "name" ∉ p.products) ∧
    ((Get p c).resp.code = 200 ↔ c.Param "name" ∈ p.products) := by
  have key : ∀ q : productHandler,
      ((Get q c).resp.code = 404 ↔ c.Param "name" ∉ q.products) ∧
      ((Get q c).resp.code = 200 ↔ c.Param "name" ∈ q.products) := by
    intro q
    cases hl : q.products.lookup (c.Param "name") with
    | none =>
      have hn : c.Param "name" ∉ q.products := Finmap.lookup_eq_none.1 hl
      rw [Get_missing q c hl]
      exact ⟨⟨fun _ => hn, fun _ => rfl⟩, ⟨fun h => by simp at h, fun h => absurd h hn⟩⟩
    | some r =>
      have hin : c.Param "name" ∈ q.products := Finmap.mem_iff.2 ⟨r, hl⟩
      rw [Get_found q c r hl]
      exact ⟨⟨fun h => by simp at h, fun h => absurd hin h⟩, ⟨fun _ => hin, fun _ => rfl⟩⟩
  refine ⟨fun hno => ?_, key p⟩
  refine (key (run timeParse newProductHandle reqs)).1.2 ?_
  intro hin
  rcases run_mem timeParse reqs newProductHandle (c.Param "name") hin with h0 | ⟨e, he, hc⟩
  · exact Finmap.not_mem_empty h0
  · rw [hno e he] at hc
    cases hc

theorem C3_get_not_found_witness :
    (∀ e ∈ trace rejectTime newProductHandle
        [Req.create 5 widgetHeaderCtx, Req.get (getCtx "widget")],
      createdFor ((getCtx "gadget").Param "name") e = false) ∧
    (Get (run rejectTime newProductHandle
      [Req.create 5 widgetHeaderCtx, Req.get (getCtx "widget")]) (getCtx "gadget")).resp.code
        = 404 :=
  have h : ∀ e ∈ trace rejectTime newProductHandle
        [Req.create 5 widgetHeaderCtx, Req.get (getCtx "widget")],
      createdFor ((getCtx "gadget").Param "name") e = false := by
    intro e he
    simp only [trace, List.mem_cons, List.mem_singleton, List.not_mem_nil, or_false] at he
    rcases he with he | he <;> subst he <;> rfl
  ⟨h, (C3_get_not_found rejectTime [Req.create 5 widgetHeaderCtx, Req.get (getCtx "widget")]
    newProductHandle (getCtx "gadget")).1 h⟩

/-- C4: round trip. When a create is answered 200 with record `r`, a get for
`r.Name` on the resulting store is answered 200 with exactly `r`, the server-set
`CreatedAt` included. -/
theorem C4_create_then_get (timeParse : String → Except String Time) (p : productHandler)
    (now : Time) (c : Context) (r : Product) (g : Context)
    (hcode : (Create timeParse p now c).resp.code = 200)
    (hbody : (Create timeParse p now c).resp.body = .product r)
    (hg : g.Param "name" = r.Name) :
    (Get (Create timeParse p now c).handler g).resp = { code := 200, body := .product r } :=
  Create_then_Get timeParse p now c r g hcode hbody hg

theorem C4_create_then_get_witness :
    (Create rejectTime newProductHandle 5 widgetHeaderCtx).resp.code = 200 ∧
    (Create rejectTime newProductHandle 5 widgetHeaderCtx).resp.body =
      .product { widget with CreatedAt := 5 } ∧
    (getCtx "widget").Param "name" = ({ widget with CreatedAt := 5 } : Product).Name ∧
    (Get (Create rejectTime newProductHandle 5 widgetHeaderCtx).handler (getCtx "widget")).resp =
      { code := 200, body := .product { widget with CreatedAt := 5 } } :=
  ⟨rfl, rfl, rfl,
    C4_create_then_get rejectTime newProductHandle 5 widgetHeaderCtx
      { widget with CreatedAt := 5 } (getCtx "widget") rfl rfl rfl⟩

/-- C5: what the code does with the specification's example. The product sent
as a JSON body, to a store without `widget`, is answered 400 by the validation
error of an empty product and nothing is stored, whatever the clock and the time
parser; the same product sent in request headers is answered 200; and the
outcome of `Create` never depends on the request body. -/
theorem C5_create_ignores_body (timeParse : String → Except String Time) (now : Time)
    (p : productHandler) (c : Context) (body : String) :
    (Create timeParse newProductHandle now widgetBodyCtx).resp =
      { code := 400
        body := .error ("\n".intercalate
          (["Username", "Name", "Category", "Price", "Description"].map requiredMsg)) } ∧
    (Create timeParse newProductHandle now widgetBodyCtx).handler.products = ∅ ∧
    (Create timeParse newProductHandle now widgetHeaderCtx).resp =
      { code := 200, body := .product { widget with CreatedAt := now } } ∧
    Create timeParse p now { c with Body := body } = Create timeParse p now c :=
  ⟨rfl, rfl, rfl, rfl⟩

/-- C6: a create request that lacks a required field (username, name, category
or description empty, price zero or absent) is answered 400 with an error
payload and leaves the store as it was, whether or not the submitted name is
already a key. -/
theorem C6_create_missing_field (timeParse : String → Except String Time) (p : productHandler)
    (now : Time) (c : Context) (h : MissingRequired c) :
    (Create timeParse p now c).resp.code = 400 ∧
    (∃ msg, (Create timeParse p now c).resp.body = .error msg) ∧
    (Create timeParse p now c).handler.products = p.products := by
  obtain ⟨e, he⟩ := ShouldBindHeader_missing timeParse c h
  rw [Create_error timeParse p now c e he]
  exact ⟨rfl, ⟨e, rfl⟩, rfl⟩

theorem C6_create_missing_field_witness :
    MissingRequired anonymousCtx ∧ headerString anonymousCtx.Header "Name" ∈ widgetStore.products ∧
    (Create rejectTime widgetStore 9 anonymousCtx).resp.code = 400 ∧
    (∃ msg, (Create rejectTime widgetStore 9 anonymousCtx).resp.body = .error msg) ∧
    (Create rejectTime widgetStore 9 anonymousCtx).handler.products = widgetStore.products :=
  ⟨Or.inl rfl, (Finmap.mem_singleton _ _ _).2 rfl,
    C6_create_missing_field rejectTime widgetStore 9 anonymousCtx (Or.inl rfl)⟩

/-- C8: immutability. Along every finite sequence of create and get requests,
whatever their outcome, every name that is a key of the store before the
sequence is still a key after it and maps to the identical record; and a get
leaves the handler, hence the whole store, unchanged. -/
theorem C8_records_immutable (timeParse : String → Except String Time) (p : productHandler)
    (reqs : List Req) (k : String) (r : Product) (q : productHandler) (g : Context)
    (h : p.products.lookup k = some r) :
    (run timeParse p reqs).products.lookup k = some r ∧
    k ∈ (run timeParse p reqs).products ∧
    (Get q g).handler = q :=
  ⟨run_lookup_mono timeParse reqs p k r h,
    Finmap.mem_iff.2 ⟨r, run_lookup_mono timeParse reqs p k r h⟩, Get_handler q g⟩

theorem C8_records_immutable_witness :
    widgetStore.products.lookup "widget" = some { widget with CreatedAt := 5 } ∧
    (run rejectTime widgetStore
      [Req.create 9 widgetHeaderCtx, Req.get (getCtx "widget"), Req.create 11 anonymousCtx]
      ).products.lookup "widget" = some { widget with CreatedAt := 5 } ∧
    "widget" ∈ (run rejectTime widgetStore
      [Req.create 9 widgetHeaderCtx, Req.get (getCtx "widget"), Req.create 11 anonymousCtx]
      ).products ∧
    (Get widgetStore (getCtx "widget")).handler = widgetStore :=
  ⟨Finmap.lookup_singleton_eq,
    C8_records_immutable rejectTime widgetStore
      [Req.create 9 widgetHeaderCtx, Req.get (getCtx "widget"), Req.create 11 anonymousCtx]
      "widget" { widget with CreatedAt := 5 } widgetStore (getCtx "widget")
      Finmap.lookup_singleton_eq⟩

/-- C10: name uniqueness as an invariant of the reachable stores. In every store
reached from the empty one by a finite sequence of create and get requests,
an entry `(k, r)` has `r.Name = k`, its username, name, category and description
are non-empty and its price is non-zero, so `k` is not the empty string, and a
record stored under another key has another name. -/
theorem C10_store_invariant (timeParse : String → Except String Time) (reqs : List Req)
    (k : String) (r : Product)
    (h : (run timeParse newProductHandle reqs).products.lookup k = some r) :
    r.Name = k ∧
    (r.Username ≠ "" ∧ r.Name ≠ "" ∧ r.Category ≠ "" ∧ r.Description ≠ "" ∧ r.Price ≠ 0) ∧
    k ≠ "" ∧ "" ∉ (run timeParse newProductHandle reqs).products ∧
    ∀ k2 r2, (run timeParse newProductHandle reqs).products.lookup k2 = some r2 →
      k2 ≠ k → r2.Name ≠ r.Name := by
  have inv := run_StoreInv timeParse reqs newProductHandle StoreInv_new
  obtain ⟨hname, hvalid⟩ := inv k r h
  refine ⟨hname, hvalid, ?_, ?_, ?_⟩
  · rw [← hname]; exact hvalid.2.1
  · intro hin
    obtain ⟨r0, h0⟩ := Finmap.mem_iff.1 hin
    obtain ⟨hn0, hv0⟩ := inv "" r0 h0
    exact hv0.2.1 hn0
  · intro k2 r2 h2 hne
    rw [(inv k2 r2 h2).1, hname]
    exact hne

theorem C10_store_invariant_witness :
    (run rejectTime newProductHandle [Req.create 5 widgetHeaderCtx]).products.lookup "widget" =
      some { widget with CreatedAt := 5 } ∧
    ({ widget with CreatedAt := 5 } : Product).Name = "widget" :=
  ⟨Finmap.lookup_insert _,
    (C10_store_invariant rejectTime [Req.create 5 widgetHeaderCtx] "widget"
      { widget with CreatedAt := 5 } (Finmap.lookup_insert _)).1⟩

/-- C9: creates with distinct names, one serialisation at a time. For every
store, every finite batch of creates that bind to valid products with pairwise
distinct names absent from the store, and every order in which the batch is
applied, the responses line up one to one with the requests, each is 200 with
the submitted product stamped with its clock reading, and on the final store a
get for that name is answered 200 with the same record. -/
theorem C9_serialised_creates (timeParse : String → Except String Time) (p : productHandler)
    (items order : List Submission)
    (hvalid : ∀ x ∈ items, mapHeader timeParse x.c.Header = .ok x.prod ∧ Valid x.prod)
    (habsent : ∀ x ∈ items, x.prod.Name ∉ p.products)
    (hdistinct : (items.map fun x => x.prod.Name).Nodup)
    (hperm : order.Perm items) :
    List.Forall₂
      (fun x e => e.1 = Req.create x.now x.c ∧ e.2.code = 200 ∧
        e.2.body = .product { x.prod with CreatedAt := x.now } ∧
        ∀ g : Context, g.Param "name" = x.prod.Name →
          (Get (run timeParse p (order.map fun y => Req.create y.now y.c)) g).resp = e.2)
      order (trace timeParse p (order.map fun y => Req.create y.now y.c)) := by
  have hb : ∀ x ∈ order, ShouldBindHeader timeParse x.c = .ok x.prod := fun x hx =>
    ShouldBindHeader_of_valid timeParse x.c x.prod (hvalid x (hperm.mem_iff.1 hx)).1
      (hvalid x (hperm.mem_iff.1 hx)).2
  have ha : ∀ x ∈ order, x.prod.Name ∉ p.products := fun x hx =>
    habsent x (hperm.mem_iff.1 hx)
  have hd : (order.map fun x => x.prod.Name).Nodup :=
    ((hperm.map fun x => x.prod.Name).nodup_iff).2 hdistinct
  have hall := creates_trace timeParse order p hb ha hd
  refine List.Forall₂.imp ?_ hall
  intro x e ⟨he, hl⟩
  subst he
  refine ⟨rfl, rfl, rfl, ?_⟩
  intro g hg
  apply Get_found
  rw [hg]
  exact hl

theorem C9_serialised_creates_witness :
    (∀ x ∈ [Submission.mk 5 widgetHeaderCtx widget, Submission.mk 7 gadgetHeaderCtx gadget],
      mapHeader rejectTime x.c.Header = .ok x.prod ∧ Valid x.prod) ∧
    (∀ x ∈ [Submission.mk 5 widgetHeaderCtx widget, Submission.mk 7 gadgetHeaderCtx gadget],
      x.prod.Name ∉ newProductHandle.products) ∧
    ([Submission.mk 5 widgetHeaderCtx widget, Submission.mk 7 gadgetHeaderCtx gadget].map
      fun x => x.prod.Name).Nodup ∧
    List.Forall₂
      (fun x e => e.1 = Req.create x.now x.c ∧ e.2.code = 200 ∧
        e.2.body = .product { x.prod with CreatedAt := x.now } ∧
        ∀ g : Context, g.Param "name" = x.prod.Name →
          (Get (run rejectTime newProductHandle
            ([Submission.mk 7 gadgetHeaderCtx gadget, Submission.mk 5 widgetHeaderCtx widget].map
              fun y => Req.create y.now y.c)) g).resp = e.2)
      [Submission.mk 7 gadgetHeaderCtx gadget, Submission.mk 5 widgetHeaderCtx widget]
      (trace rejectTime newProductHandle
        ([Submission.mk 7 gadgetHeaderCtx gadget, Submission.mk 5 widgetHeaderCtx widget].map
          fun y => Req.create y.now y.c)) :=
  have hvalid : ∀ x ∈ [Submission.mk 5 widgetHeaderCtx widget,
      Submission.mk 7 gadgetHeaderCtx gadget],
      mapHeader rejectTime x.c.Header = .ok x.prod ∧ Valid x.prod := by
    intro x hx
    simp only [List.mem_cons, List.mem_singleton, List.not_mem_nil, or_false] at hx
    rcases hx with hx | hx <;> subst hx <;> exact ⟨rfl, by decide⟩
  have habsent : ∀ x ∈ [Submission.mk 5 widgetHeaderCtx widget,
      Submission.mk 7 gadgetHeaderCtx gadget], x.prod.Name ∉ newProductHandle.products :=
    fun _ _ => Finmap.not_mem_empty
  have hdistinct : ([Submission.mk 5 widgetHeaderCtx widget,
      Submission.mk 7 gadgetHeaderCtx gadget].map fun x => x.prod.Name).Nodup := by
    decide
  ⟨hvalid, habsent, hdistinct,
    C9_serialised_creates rejectTime newProductHandle
      [Submission.mk 5 widgetHeaderCtx widget, Submission.mk 7 gadgetHeaderCtx gadget]
      [Submission.mk 7 gadgetHeaderCtx gadget, Submission.mk 5 widgetHeaderCtx widget]
      hvalid habsent hdistinct (List.Perm.swap _ _ _)⟩

/-- C7: what the code does where the claim asks for one shared store. On the
process `main` builds, a product created through the plain listener is answered
200 and is returned with 200 by a get through that same listener, but a get for
its name through the TLS listener is answered 404, and the same holds with the
listeners exchanged: each server literal calls `router()`, so the two servers
hold different engines bound to different `productHandler` objects. -/
theorem C7_listeners_share_no_store (timeParse : String → Except String Time) (now : Time) :
    (main.serve timeParse .insecure (.create now widgetHeaderCtx)).2 =
      some { code := 200, body := .product { widget with CreatedAt := now } } ∧
    ((main.serve timeParse .insecure (.create now widgetHeaderCtx)).1.serve timeParse .insecure
      (.get (getCtx "widget"))).2 =
      some { code := 200, body := .product { widget with CreatedAt := now } } ∧
    ((main.serve timeParse .insecure (.create now widgetHeaderCtx)).1.serve timeParse .secure
      (.get (getCtx "widget"))).2 =
      some { code := 404, body := .errorValue "can not found product widget" } ∧
    (main.serve timeParse .secure (.create now widgetHeaderCtx)).2 =
      some { code := 200, body := .product { widget with CreatedAt := now } } ∧
    ((main.serve timeParse .secure (.create now widgetHeaderCtx)).1.serve timeParse .insecure
      (.get (getCtx "widget"))).2 =
      some { code := 404, body := .errorValue "can not found product widget" } ∧
    main.insecureServer.Handler ≠ main.secureServer.Handler ∧
    main.insecureServer.Handler.routes.map (fun ri => ri.Handler) =
      [HandlerFunc.Create 0, HandlerFunc.Get 0] ∧
    main.secureServer.Handler.routes.map (fun ri => ri.Handler) =
      [HandlerFunc.Create 1, HandlerFunc.Get 1] :=
  ⟨rfl, rfl, rfl, rfl, rfl, by decide, rfl, rfl⟩

end webfeature
